import Mathlib

/-!
Shallow embedding of `src/sanitizers.py` (the source-compatibility transcoder
of the doc-m-compliance-api repository) over `List Char`, together with proofs
checking the specification's claims against it.

Conventions of the embedding:
* Python `str` is modelled as `List Char`.
* Python regex character classes are modelled at ASCII precision:
  `\w` is `[A-Za-z0-9_]`, `\s` is the ASCII whitespace set.
* Each `re.sub` call is modelled by an explicit left-to-right scanner that
  reproduces the leftmost-match, greedy-with-backtracking semantics of the
  concrete pattern appearing in the source.  Scanners that skip ahead by a
  matched region take an explicit fuel argument (always called with
  `length + 1`, which bounds the number of scan steps, since every step
  consumes at least one character); on fuel 0 they return the rest unchanged.
-/

namespace Sanitizers

/-- The single-quote character, written via its code point. -/
def squote : Char := Char.ofNat 39

/-- The opening-brace character, written via its code point. -/
def lbrace : Char := Char.ofNat 123

/-- The closing-brace character, written via its code point. -/
def rbrace : Char := Char.ofNat 125

/-- The quote alternatives of the patterns: a double or single quote. -/
def isQuoteChar (c : Char) : Bool := c == '"' || c == squote

/-- Python regex `\w` at ASCII precision. -/
def isWordChar (c : Char) : Bool := c.isAlphanum || c == '_'

/-- Python regex `\s` at ASCII precision (space, tab, newline, CR, VT, FF). -/
def isSpaceChar (c : Char) : Bool :=
  c == ' ' || c == '\t' || c == '\n' || c == '\r' ||
  c == Char.ofNat 11 || c == Char.ofNat 12

/-- Word-boundary test before a word character, given the preceding character
(`none` at the start of the buffer): `\b` holds there iff the previous
character is absent or is not a word character. -/
def boundaryB : Option Char → Bool
  | none => true
  | some c => !isWordChar c

/-- Python `pat in s` substring test. -/
def listContains (pat : List Char) : List Char → Bool
  | [] => pat.isEmpty
  | c :: cs => pat.isPrefixOf (c :: cs) || listContains pat cs

/-- Python `str.strip()` at ASCII precision. -/
def pyStrip (l : List Char) : List Char :=
  ((l.dropWhile isSpaceChar).reverse.dropWhile isSpaceChar).reverse

/-- Python `'%d' % n` for a natural number. -/
def natChars (n : Nat) : List Char := (Nat.repr n).toList

/-- Python `s.count(q)` for a single-character needle `q`. -/
def countCh (q : Char) (l : List Char) : Nat :=
  (l.filter (fun c => c == q)).length

/-! ## `strip_type_hints` (sanitizers.py lines 8-15)

Line 9: `re.sub(r'(\)\s*->\s*[^:]+):', r'):', py_code)`.
Lines 10-14: `re.sub(r'\(([^)]*)\)', _strip_params, py_code)` where
`_strip_params` applies `re.sub(r'(\b\w+\b)\s*:\s*[^,\)\n]+', r'\1', params)`
to the captured group. -/

/-- Stop set `[,\)\n]` of the parameter-annotation pattern. -/
def isStopChar (c : Char) : Bool := c == ',' || c == ')' || c == '\n'

/-- Attempt the `\s*:\s*[^,\)\n]+` part of the parameter pattern on the text
following a word run.  Greedy `\s*` with backtracking: the `[^,\)\n]+` part
takes the maximal run after the whitespace following the colon; if that run is
empty, the engine gives whitespace characters back one at a time, so the match
succeeds on the last non-newline whitespace character if one exists.  Returns
the last consumed character (needed as boundary context) and the rest. -/
def tryAnnot (l : List Char) : Option (Char × List Char) :=
  match l.dropWhile isSpaceChar with
  | ':' :: cs2 =>
    let W := cs2.takeWhile isSpaceChar
    let afterWs := cs2.dropWhile isSpaceChar
    let T := afterWs.takeWhile (fun c => !isStopChar c)
    match T.reverse with
    | t :: _ => some (t, afterWs.drop T.length)
    | [] =>
      match W.reverse.dropWhile (fun c => c == '\n') with
      | w :: _ => some (w, (W.reverse.takeWhile (fun c => c == '\n')).reverse ++ afterWs)
      | [] => none
  | _ => none

/-- Scanner for `re.sub(r'(\b\w+\b)\s*:\s*[^,\)\n]+', r'\1', params)`:
a match starts at the first character of a maximal word run (the two `\b`
anchors), and on success the annotation text is dropped while the word is
kept. -/
def annotSub : Nat → Option Char → List Char → List Char
  | 0, _, l => l
  | _ + 1, _, [] => []
  | fu + 1, prev, c :: cs =>
    if isWordChar c && boundaryB prev then
      match tryAnnot (cs.dropWhile isWordChar) with
      | some (w, rest) => (c :: cs.takeWhile isWordChar) ++ annotSub fu (some w) rest
      | none => c :: annotSub fu (some c) cs
    else c :: annotSub fu (some c) cs

/-- Attempt the `\s*->\s*[^:]+:` part of the return-annotation pattern on the
text following a `)`.  Since whitespace characters are themselves non-colon,
`\s*[^:]+:` matches exactly when the character right after `->` is not a colon
and a colon occurs later; the match extends through that first colon. -/
def tryArrow (cs : List Char) : Option (List Char) :=
  match cs.dropWhile isSpaceChar with
  | '-' :: '>' :: cs2 =>
    match cs2 with
    | [] => none
    | d :: _ =>
      if d == ':' then none
      else
        match cs2.dropWhile (fun c => c != ':') with
        | ':' :: rest => some rest
        | _ => none
  | _ => none

/-- Scanner for `re.sub(r'(\)\s*->\s*[^:]+):', r'):', py_code)`. -/
def arrowSub : Nat → List Char → List Char
  | 0, l => l
  | _ + 1, [] => []
  | fu + 1, c :: cs =>
    if c == ')' then
      match tryArrow cs with
      | some rest => ')' :: ':' :: arrowSub fu rest
      | none => c :: arrowSub fu cs
    else c :: arrowSub fu cs

/-- Scanner for `re.sub(r'\(([^)]*)\)', _strip_params, py_code)`: the group is
everything from a `(` up to the next `)` (the class `[^)]` crosses nested `(`
but not `)`), and `_strip_params` is applied to it. -/
def paramSub : Nat → List Char → List Char
  | 0, l => l
  | _ + 1, [] => []
  | fu + 1, c :: cs =>
    if c == '(' then
      match cs.dropWhile (fun d => d != ')') with
      | ')' :: rest =>
        '(' :: (annotSub ((cs.takeWhile (fun d => d != ')')).length + 1) none
            (cs.takeWhile (fun d => d != ')')) ++ ')' :: paramSub fu rest)
      | _ => c :: paramSub fu cs
    else c :: paramSub fu cs

/-- `strip_type_hints` (sanitizers.py lines 8-15). -/
def strip_type_hints (s : List Char) : List Char :=
  paramSub ((arrowSub (s.length + 1) s).length + 1) (arrowSub (s.length + 1) s)

/-! ## `_convert_one_fstring` (sanitizers.py lines 17-39) -/

/-- The `[ru]*` part of `_FSTR_PREFIX_RE` (case-insensitive). -/
def isRU (c : Char) : Bool := c.toLower == 'r' || c.toLower == 'u'

/-- `_FSTR_PREFIX_RE.match(literal)`: anchored match of
`(?P<prefix>\bf[ru]*)(?P<quote>["\'])`, case-insensitive.  Returns the prefix
length and the quote character.  (`\b` holds at position 0 because the first
character is an `f`.) -/
def fstrPrefixMatch : List Char → Option (Nat × Char)
  | [] => none
  | c :: rest =>
    if c.toLower == 'f' then
      match rest.dropWhile isRU with
      | q :: _ => if isQuoteChar q then some ((rest.takeWhile isRU).length + 1, q) else none
      | [] => none
    else none

/-- Scanner for `_BRACED_EXPR_RE.sub(repl, body)` with pattern
`\{([^{}]+)\}`: each brace-delimited run of one or more non-brace characters
is replaced by the positional placeholder of the running index, and the
stripped expression text is collected in order (the closure-captured `idx`
and `exprs` of the source become the threaded index and the returned list). -/
def bracedSub : Nat → Nat → List Char → List Char × List (List Char)
  | 0, _, l => (l, [])
  | _ + 1, _, [] => ([], [])
  | fu + 1, idx, c :: cs =>
    if c == lbrace then
      match cs.dropWhile (fun d => d != lbrace && d != rbrace) with
      | d :: rest2 =>
        if d == rbrace && !(cs.takeWhile (fun e => e != lbrace && e != rbrace)).isEmpty then
          let p := bracedSub fu (idx + 1) rest2
          (lbrace :: (natChars idx ++ rbrace :: p.1),
           pyStrip (cs.takeWhile (fun e => e != lbrace && e != rbrace)) :: p.2)
        else
          let p := bracedSub fu idx cs
          (c :: p.1, p.2)
      | [] =>
        let p := bracedSub fu idx cs
        (c :: p.1, p.2)
    else
      let p := bracedSub fu idx cs
      (c :: p.1, p.2)

/-- `_convert_one_fstring` (sanitizers.py lines 17-39). -/
def convert_one_fstring (lit : List Char) : List Char × Bool :=
  match lit with
  | [] => (lit, false)
  | c :: _ =>
    if c.toLower != 'f' then (lit, false)
    else
      match fstrPrefixMatch lit with
      | none => (lit, false)
      | some (plen, q) =>
        if countCh q lit < 2 then (lit, false)
        else
          let body := lit.drop plen
          let p := bracedSub (body.length + 1) 0 body
          if p.2.isEmpty then (p.1, false)
          else (p.1 ++ ".format(".toList ++ List.intercalate ", ".toList p.2 ++ [')'], true)

/-! ## `convert_fstrings_to_format` (sanitizers.py lines 41-73) -/

/-- The literal-body scan of lines 56-64: consume characters after the opening
quote, tracking the escaped flag, until an unescaped closing quote (included)
or the end of the line.  Returns the consumed body and the rest of the line. -/
def scanLit (q : Char) : Bool → List Char → List Char × List Char
  | _, [] => ([], [])
  | escaped, c :: cs =>
    if c == '\\' && !escaped then
      let p := scanLit q true cs
      (c :: p.1, p.2)
    else if c == q && !escaped then ([c], cs)
    else
      let p := scanLit q false cs
      (c :: p.1, p.2)

/-- The per-line index loop of lines 49-72: at an `f`/`F` directly followed by
a quote, scan the literal, convert it, and keep the conversion only when the
`ok` flag is set; otherwise copy one character. -/
def scanFLine : Nat → List Char → List Char
  | 0, l => l
  | _ + 1, [] => []
  | _ + 1, [c] => [c]
  | fu + 1, c :: q :: rest =>
    if c.toLower == 'f' && isQuoteChar q then
      let p := scanLit q false rest
      let cb := convert_one_fstring (c :: q :: p.1)
      (if cb.2 then cb.1 else c :: q :: p.1) ++ scanFLine fu p.2
    else c :: scanFLine fu (q :: rest)

/-- Scanner for line 48: `re.sub(r'\bf("""|\'\'\')', r'\1', ln)`
(case-sensitive; the triple quote is kept, the `f` is dropped). -/
def tripleSub : Nat → Option Char → List Char → List Char
  | 0, _, l => l
  | _ + 1, _, [] => []
  | fu + 1, prev, c :: cs =>
    if c == 'f' && boundaryB prev &&
        (['"', '"', '"'].isPrefixOf cs || [squote, squote, squote].isPrefixOf cs) then
      match cs with
      | q :: rest => q :: q :: q :: tripleSub fu (some q) (rest.drop 2)
      | [] => [c]
    else c :: tripleSub fu (some c) cs

/-- The line-break set of Python `str.splitlines`. -/
def isLineBreak (c : Char) : Bool :=
  c == '\n' || c == '\r' || c == Char.ofNat 11 || c == Char.ofNat 12 ||
  c == Char.ofNat 28 || c == Char.ofNat 29 || c == Char.ofNat 30 ||
  c == Char.ofNat 133 || c == Char.ofNat 8232 || c == Char.ofNat 8233

/-- Python `str.splitlines(True)` (keepends): accumulate the current line and
cut after each terminator, treating `\r\n` as one terminator. -/
def splitAux : List Char → List Char → List (List Char)
  | acc, [] => if acc.isEmpty then [] else [acc.reverse]
  | acc, '\r' :: '\n' :: rest => (acc.reverse ++ ['\r', '\n']) :: splitAux [] rest
  | acc, c :: rest =>
    if isLineBreak c then (acc.reverse ++ [c]) :: splitAux [] rest
    else splitAux (c :: acc) rest

/-- The substring `f"` tested on line 45. -/
def fdq : List Char := ['f', '"']

/-- The substring `f'` tested on line 45. -/
def fsq : List Char := ['f', squote]

/-- The substring `f"""` tested on lines 45 and 47. -/
def fdq3 : List Char := ['f', '"', '"', '"']

/-- The substring `f'''` tested on lines 45 and 47. -/
def fsq3 : List Char := ['f', squote, squote, squote]

/-- The per-line processing of lines 44-72: skip lines holding no `f`-quote
substring; strip `f` before triple quotes when present; then run the literal
scan. -/
def processLine (ln : List Char) : List Char :=
  if !listContains fdq ln && !listContains fsq ln &&
      !listContains fdq3 ln && !listContains fsq3 ln then ln
  else
    scanFLine
      ((if listContains fdq3 ln || listContains fsq3 ln then
          tripleSub (ln.length + 1) none ln
        else ln).length + 1)
      (if listContains fdq3 ln || listContains fsq3 ln then
          tripleSub (ln.length + 1) none ln
        else ln)

/-- `convert_fstrings_to_format` (sanitizers.py lines 41-73). -/
def convert_fstrings_to_format (s : List Char) : List Char :=
  ((splitAux [] s).map processLine).flatten

/-! ## `enforce_py2_print_compat` (sanitizers.py lines 75-77) -/

/-- Scanner for `re.sub(r'print\(([^,]+)\)', r'print \1', py_code)`: at an
occurrence of `print(`, the group is the longest comma-free run that is
followed by a `)` — that is, everything up to the last `)` occurring before
the first comma — and must be non-empty. -/
def printSub : Nat → List Char → List Char
  | 0, l => l
  | _ + 1, [] => []
  | fu + 1, c :: cs =>
    if "print(".toList.isPrefixOf (c :: cs) then
      match (((c :: cs).drop 6).takeWhile (fun d => d != ',')).reverse.dropWhile
          (fun d => d != ')') with
      | d :: argRev =>
        if d == ')' && !argRev.isEmpty then
          "print ".toList ++ argRev.reverse ++
            printSub fu
              (((((c :: cs).drop 6).takeWhile (fun d => d != ',')).reverse.takeWhile
                  (fun d => d != ')')).reverse ++
                ((c :: cs).drop 6).drop
                  (((c :: cs).drop 6).takeWhile (fun d => d != ',')).length)
        else c :: printSub fu cs
      | [] => c :: printSub fu cs
    else c :: printSub fu cs

/-- `enforce_py2_print_compat` (sanitizers.py lines 75-77). -/
def enforce_py2_print_compat (s : List Char) : List Char :=
  printSub (s.length + 1) s

/-! ## `sanitize_for_ironpython` (sanitizers.py lines 79-85) -/

/-- Head-of-list quote test, used by the quote lookahead `(?=["\'])`. -/
def quoteHead : List Char → Bool
  | [] => false
  | q :: _ => isQuoteChar q

/-- `re.search(r'(^|\W)f["\']', code)` as a Bool: some `f` preceded by the
start of the buffer or a non-word character is directly followed by a quote. -/
def hasFQuote : Option Char → List Char → Bool
  | _, [] => false
  | prev, c :: cs => (c == 'f' && boundaryB prev && quoteHead cs) || hasFQuote (some c) cs

/-- Scanner for `re.sub(r'\bf(?=["\'])', '', code)`: drop every `f` standing
at a word boundary directly before a quote (the lookahead consumes nothing). -/
def fQuoteSub : Option Char → List Char → List Char
  | _, [] => []
  | prev, c :: cs =>
    if c == 'f' && boundaryB prev && quoteHead cs then fQuoteSub (some c) cs
    else c :: fQuoteSub (some c) cs

/-- `sanitize_for_ironpython` (sanitizers.py lines 79-85). -/
def sanitize_for_ironpython (s : List Char) : List Char :=
  let code := enforce_py2_print_compat (convert_fstrings_to_format (strip_type_hints s))
  if hasFQuote none code then fQuoteSub none code else code

/-! ## Supporting lemmas -/

/-- A quote character is not the letter `f`. -/
theorem quoteChar_ne_f {q : Char} (h : isQuoteChar q = true) : (q == 'f') = false := by
  unfold isQuoteChar at h
  cases h1 : (q == '"') with
  | true => rw [beq_iff_eq] at h1; subst h1; decide
  | false =>
    rw [h1, Bool.false_or, beq_iff_eq] at h
    subst h; decide

/-- After the final-cleanup substitution `re.sub(r'\bf(?=["\'])', '', code)`,
no `f` at a word boundary directly before a quote remains, whatever the
boundary context was. -/
theorem hasFQuote_fQuoteSub : ∀ (l : List Char) (prev : Option Char),
    hasFQuote prev (fQuoteSub prev l) = false := by
  intro l
  induction l with
  | nil => intro prev; rfl
  | cons c cs ih =>
    intro prev
    cases hcond : (c == 'f' && boundaryB prev && quoteHead cs) with
    | true =>
      have h := hcond
      simp only [Bool.and_eq_true] at h
      obtain ⟨⟨hf, hb⟩, hq⟩ := h
      cases cs with
      | nil => simp [quoteHead] at hq
      | cons q rest =>
        have hqc : isQuoteChar q = true := hq
        have hqf : (q == 'f') = false := quoteChar_ne_f hqc
        have hmain := ih (some q)
        simp only [fQuoteSub, hqf, Bool.false_and, Bool.false_eq_true, if_false] at hmain
        simp only [hasFQuote, hqf, Bool.false_and, Bool.false_or] at hmain
        simp only [fQuoteSub, hcond, if_true, hqf, Bool.false_and, Bool.false_eq_true, if_false]
        simp only [hasFQuote, hqf, Bool.false_and, Bool.false_or]
        exact hmain
    | false =>
      simp only [fQuoteSub, hcond, Bool.false_eq_true, if_false]
      simp only [hasFQuote, ih (some c), Bool.or_false]
      cases hf : (c == 'f') with
      | false => simp [hf]
      | true =>
        cases hb : boundaryB prev with
        | false => simp [hb]
        | true =>
          have hqh : quoteHead cs = false := by
            rw [hf, hb] at hcond
            simpa using hcond
          have hcf : c = 'f' := by simpa using hf
          subst hcf
          cases cs with
          | nil => simp [fQuoteSub, quoteHead]
          | cons d ds =>
            have hd : isQuoteChar d = false := hqh
            have hbf : boundaryB (some 'f') = false := by decide
            simp [fQuoteSub, hbf, quoteHead, hd]

/-! ## The claims -/

/-- C1: the spec claims the full pipeline is idempotent
(`sanitize_for_ironpython (sanitize_for_ironpython x) = sanitize_for_ironpython x`
for every `x`).  The code is not: on `print(print(a))` the statement downgrader
rewrites the outer call on the first pass (yielding `print print(a)`) and the
now-exposed inner call on the second pass (yielding `print print a`), so the
two passes disagree. -/
theorem c1_pipeline_not_idempotent :
    sanitize_for_ironpython ("print(print(a))".toList) = "print print(a)".toList ∧
    sanitize_for_ironpython (sanitize_for_ironpython ("print(print(a))".toList)) =
      "print print a".toList ∧
    sanitize_for_ironpython (sanitize_for_ironpython ("print(print(a))".toList)) ≠
      sanitize_for_ironpython ("print(print(a))".toList) := by
  refine ⟨by decide, by decide, by decide⟩

/-- C2: the spec claims an input with an unterminated literal (its own example
is `f"open`) is returned unchanged.  The code does leave the literal alone in
the rewriter stage, but the final cleanup pass of `sanitize_for_ironpython`
(lines 83-84) still strips the `f` prefix, so the buffer comes back as
`"open`, not unchanged. -/
theorem c2_unterminated_literal_changed :
    sanitize_for_ironpython ("f\"open".toList) = "\"open".toList ∧
    sanitize_for_ironpython ("f\"open".toList) ≠ "f\"open".toList := by
  refine ⟨by decide, by decide⟩

/-- C3: the spec claims non-interpolated literal spans are byte-identical
across the pipeline, and in particular that `strip_type_hints` and
`enforce_py2_print_compat` never touch literal interiors.  Both stages are
plain regex passes that do not consult any literal scan: the downgrader
rewrites the text inside the plain literal `"print(a)"`, and the annotation
stripper truncates the plain literal `"a: b"` inside `print("a: b")`. -/
theorem c3_literals_not_preserved :
    sanitize_for_ironpython ("\"print(a)\"".toList) = "\"print a\"".toList ∧
    enforce_py2_print_compat ("\"print(a)\"".toList) = "\"print a\"".toList ∧
    strip_type_hints ("print(\"a: b\")".toList) = "print(\"a)".toList := by
  refine ⟨by decide, by decide, by decide⟩

/-- C4: the spec claims doubled braces are left untouched and consume no order
index, so `f"{{a}} {b}"` should become `"{{a}} {0}".format(b)`.  The pattern
`\{([^{}]+)\}` instead matches the inner `{a}` of the doubled group, which is
replaced by `{0}` and consumes index 0, giving `"{{0}} {1}".format(a, b)`. -/
theorem c4_doubled_braces_rewritten :
    sanitize_for_ironpython ("f\"\x7b\x7ba\x7d\x7d \x7bb\x7d\"".toList) =
      "\"\x7b\x7b0\x7d\x7d \x7b1\x7d\".format(a, b)".toList := by
  decide

/-- C5: the spec claims the annotation stripper scans a type expression with
balanced bracket matching and preserves a following default value, so
`(a: int, b: List[str] = [])` strips to `(a, b = [])`.  The pattern
`[^,\)\n]+` instead swallows everything to the next comma or closing
parenthesis, deleting the default (`(a, b)`), and truncates generic types
holding a comma (`(x: Dict[str, int])` becomes `(x, int])`). -/
theorem c5_annotation_stripper_eats_default :
    strip_type_hints ("(a: int, b: List[str] = [])".toList) = "(a, b)".toList ∧
    strip_type_hints ("(a: int, b: List[str] = [])".toList) ≠ "(a, b = [])".toList ∧
    strip_type_hints ("(x: Dict[str, int])".toList) = "(x, int])".toList := by
  refine ⟨by decide, by decide, by decide⟩

/-- C6: the spec claims `name(arg)` is downgraded exactly when the argument is
a single comma-free unnamed argument, with keyword-argument calls left
unchanged.  The pattern `print\(([^,]+)\)` checks only for the absence of a
comma, so the keyword call `print(x=1)` is also downgraded, to `print x=1`. -/
theorem c6_keyword_call_downgraded :
    enforce_py2_print_compat ("print(x=1)".toList) = "print x=1".toList ∧
    sanitize_for_ironpython ("print(x=1)".toList) = "print x=1".toList ∧
    enforce_py2_print_compat ("print(x=1)".toList) ≠ "print(x=1)".toList := by
  refine ⟨by decide, by decide, by decide⟩

/-- C7: an interpolated literal whose body holds a backslash-escaped quote,
`f"a \" b {x}"`, is scanned as one literal (the escaped quote does not
terminate it) and the pipeline rewrites it to `"a \" b {0}".format(x)`,
carrying exactly the expression `x`. -/
theorem c7_escaped_quote_one_literal :
    sanitize_for_ironpython ("f\"a \\\" b \x7bx\x7d\"".toList) =
      "\"a \\\" b \x7b0\x7d\".format(x)".toList := by
  decide

/-- C8: the spec claims an interpolated literal with an unmatched (odd) brace
count is left completely unrewritten.  The rewriter performs no brace-count
check at all: in the literal `f"{a}{"` (three braces) the complete group
`{a}` still matches, so the literal is rewritten to `"{0}{".format(a)` both by
the rewriter stage itself and by the full pipeline. -/
theorem c8_odd_brace_literal_rewritten :
    convert_fstrings_to_format ("f\"\x7ba\x7d\x7b\"".toList) =
      "\"\x7b0\x7d\x7b\".format(a)".toList ∧
    sanitize_for_ironpython ("f\"\x7ba\x7d\x7b\"".toList) =
      "\"\x7b0\x7d\x7b\".format(a)".toList := by
  refine ⟨by decide, by decide⟩

/-- C9: `sanitize_for_ironpython` is total: for every input string it
terminates and yields a string.  The embedding is a total function — every
scanning loop of the source advances its index on every step and every index
access is guarded, which the embedding mirrors with structurally recursive
scanners — so the result exists for every input. -/
theorem c9_sanitize_total (s : List Char) :
    ∃ t : List Char, sanitize_for_ironpython s = t := ⟨_, rfl⟩

/-- C10: for every input, the output of `sanitize_for_ironpython` holds no
occurrence of the letter `f` at a word boundary directly followed by a quote
character: the final cleanup pass runs exactly when such an occurrence exists
and removes every one of them without creating new ones. -/
theorem c10_no_f_prefix_in_output (s : List Char) :
    hasFQuote none (sanitize_for_ironpython s) = false := by
  have hdef : sanitize_for_ironpython s =
      if hasFQuote none (enforce_py2_print_compat (convert_fstrings_to_format (strip_type_hints s)))
      then fQuoteSub none (enforce_py2_print_compat (convert_fstrings_to_format (strip_type_hints s)))
      else enforce_py2_print_compat (convert_fstrings_to_format (strip_type_hints s)) := rfl
  rw [hdef]
  cases h : hasFQuote none
      (enforce_py2_print_compat (convert_fstrings_to_format (strip_type_hints s))) with
  | false => rw [if_neg (by simp [h]), h]
  | true => rw [if_pos (by simp [h])]; exact hasFQuote_fQuoteSub _ none

end Sanitizers
